import Mathlib

/-!
Verification of the fake "Drug Creation & Testing AI" browser demo.

The repository ships two variants of `script.js`:
* the basic variant (plain random predictions, structure suffix `-mol`);
* the enhanced variant (dummy TensorFlow.js model, Chart.js output,
  structure suffix `-MOL`).

Strings are modelled as `List Char`, JS numbers as `ℚ`, and every
`Math.random()` draw and shuffle choice is passed in as an explicit
parameter, so each definition is executable and the theorems quantify
adversarially over the randomness.  Mutation of JS arrays is modelled
twice: once value-level (pure functions) and once reference-level
(a small store of arrays), which is what the frame claims about
`shuffleArray` / `pickRandom` are stated against.
-/

namespace DrugAI

/-- The method `String.prototype.substr(start, len)` of JS, on a list of
characters (non-negative arguments only, which is how the source calls it). -/
def jsSubstr (s : List Char) (start len : Nat) : List Char :=
  (s.drop start).take len

/-- The method `String.prototype.slice(a, b)` of JS for `0 ≤ a ≤ b`, on a
list of characters. -/
def jsSlice (s : List Char) (a b : Nat) : List Char :=
  (s.drop a).take (b - a)

/-- The whitespace characters stripped by `String.prototype.trim` of JS:
ASCII whitespace, NBSP and the BOM (the rarer Unicode space separators
are omitted; no claim mentions them). -/
def jsWhitespaceChars : List Char :=
  [' ', '\t', '\n', '\r', Char.ofNat 11, Char.ofNat 12, Char.ofNat 160,
    Char.ofNat 65279]

/-- The method `String.prototype.trim` of JS, on a list of characters. -/
def jsTrim (s : List Char) : List Char :=
  ((s.dropWhile (jsWhitespaceChars.contains ·)).reverse.dropWhile
    (jsWhitespaceChars.contains ·)).reverse

/-- The method `Number.prototype.toFixed(d)` of JS, modelled on exact
rationals: round to `d` decimal places.  The result is kept as a rational
rather than re-encoded as a decimal string. -/
def jsToFixed (d : Nat) (q : ℚ) : ℚ :=
  ((round (q * 10 ^ d) : ℤ) : ℚ) / 10 ^ d

/-- One JS array swap `[a[i], a[j]] = [a[j], a[i]]`: exchange the entries
at `i` and `j` (identity when an index is out of bounds, which the
shuffle loop never produces). -/
def listSwap (l : List α) (i j : Nat) : List α :=
  match l.get? i, l.get? j with
  | some x, some y => (l.set i y).set j x
  | _, _ => l

/-- The loop of the Fisher–Yates shuffle: the counter is the current loop
index `i` running from `length - 1` down to `1`; at index `i` the source
draws `j = Math.floor(Math.random() * (i + 1)) ∈ [0, i]`, modelled as
`rand i % (i + 1)` for an adversarial `rand`. -/
def fisherYatesAux (rand : Nat → Nat) (l : List α) : Nat → List α
  | 0 => l
  | c + 1 => fisherYatesAux rand (listSwap l (c + 1) (rand (c + 1) % (c + 2))) c

/-- The function `shuffleArray(arr)` of the basic variant, as the value of
the returned clone: Fisher–Yates from `arr.length - 1` down to `1`
(the clone `arr.slice()` itself is invisible value-level; it reappears in
the reference-level model below). -/
def shuffleArray (rand : Nat → Nat) (arr : List α) : List α :=
  fisherYatesAux rand arr (arr.length - 1)

namespace Basic

/-- The `Drug` object returned by the basic variant's `simulateDrugCreation`. -/
structure Drug where
  name : List Char
  «structure» : List Char
  description : List Char
  deriving Repr, DecidableEq

/-- The function `simulateDrugCreation(input)` of the basic variant;
`randStr` is the string produced by `Math.random().toString(36)`. -/
def simulateDrugCreation (randStr input : List Char) : Drug :=
  { name := "FX-".toList ++ (jsSubstr randStr 2 5).map Char.toUpper,
    «structure» := input.reverse ++ "-mol".toList,
    description := "Fictional compound inspired by \"".toList ++ input
      ++ "\", for demo use only.".toList }

/-- The fixed side-effect vocabulary of the basic variant's
`simulateDrugTesting`. -/
def possibleEffects : List (List Char) :=
  ["Nausea".toList, "Headache".toList, "Dizziness".toList, "Fatigue".toList,
    "Dry mouth".toList]

/-- The test-result record of the basic variant. -/
structure TestResult where
  efficacy : ℚ
  toxicity : ℚ
  sideEffects : List (List Char)
  deriving Repr, DecidableEq

/-- The function `simulateDrugTesting(drug)` of the basic variant: `r1`,
`r2` are the two `Math.random()` draws (in `[0,1)`) and `rand` drives the
shuffle.  The drug argument is unused by the source body as well. -/
def simulateDrugTesting (r1 r2 : ℚ) (rand : Nat → Nat) : TestResult :=
  { efficacy := jsToFixed 1 (r1 * 100),
    toxicity := jsToFixed 1 (r2 * 100),
    sideEffects := (shuffleArray rand possibleEffects).take 2 }

/-- The spec-level operation `shuffleAndTake(items, n)` as realised by the
basic variant's call site: `shuffleArray(items).slice(0, n)`. -/
def shuffleAndTake (rand : Nat → Nat) (items : List α) (n : Nat) : List α :=
  (shuffleArray rand items).take n

/-- The session and UI state touched by the basic variant's handlers. -/
structure State where
  currentDrug : Option Drug
  resultOutput : List Char
  testBtnDisabled : Bool
  deriving Repr, DecidableEq

/-- The warning text assigned to `resultOutput` on empty input. -/
def emptyInputWarning : List Char :=
  "⚠️ Please enter a molecule design first.".toList

/-- The text assigned to `resultOutput` after a successful create action. -/
def createdText (d : Drug) : List Char :=
  "🧪 Generated Drug:\nName: ".toList ++ d.name ++ "\nStructure: ".toList
    ++ d.«structure» ++ "\nDescription: ".toList ++ d.description

/-- The `createBtn` click handler of the basic variant. -/
def createBtnClick (randStr value : List Char) (s : State) : State :=
  let input := jsTrim value
  if input = [] then { s with resultOutput := emptyInputWarning }
  else
    let drug := simulateDrugCreation randStr input
    { s with currentDrug := some drug,
             resultOutput := createdText drug,
             testBtnDisabled := false }

/-- Join a list of strings with `", "`, the way `Array.prototype.join` does. -/
def joinComma : List (List Char) → List Char
  | [] => []
  | [x] => x
  | x :: xs => x ++ ", ".toList ++ joinComma xs

/-- Render a non-negative one-decimal rational the way the `toFixed(1)`
string appears in the output panel. -/
def oneDecimalString (q : ℚ) : List Char :=
  let k := (q * 10).num.toNat
  Nat.toDigits 10 (k / 10) ++ '.' :: Nat.toDigits 10 (k % 10)

/-- The text appended to `resultOutput` by a test action. -/
def testText (t : TestResult) : List Char :=
  "\n\n🔍 Testing drug…\n".toList
    ++ "Predicted Efficacy: ".toList ++ oneDecimalString t.efficacy
    ++ "%\n".toList
    ++ "Predicted Toxicity: ".toList ++ oneDecimalString t.toxicity
    ++ "%\n".toList
    ++ "Predicted Side Effects: ".toList ++ joinComma t.sideEffects

/-- The `testBtn` click handler of the basic variant.  Returns the new
state together with whether `simulateDrugTesting` was invoked. -/
def testBtnClick (r1 r2 : ℚ) (rand : Nat → Nat) (s : State) : State × Bool :=
  match s.currentDrug with
  | none => (s, false)
  | some _ =>
    let t := simulateDrugTesting r1 r2 rand
    ({ s with resultOutput := s.resultOutput ++ testText t }, true)

end Basic

namespace Enh

/-- The `Drug` object returned by the enhanced variant's
`simulateDrugCreation`. -/
structure Drug where
  name : List Char
  «structure» : List Char
  molWeight : ℚ
  logP : ℚ
  sideEffects : List (List Char)
  deriving Repr, DecidableEq

/-- The fixed side-effect vocabulary the enhanced `simulateDrugCreation`
passes to `pickRandom`. -/
def sideEffectVocab : List (List Char) :=
  ["Nausea".toList, "Headache".toList, "Dizziness".toList, "Fatigue".toList,
    "Dry mouth".toList, "Insomnia".toList]

/-- The value computed by `pickRandom(arr, n)` of the enhanced variant:
`tf.util.shuffle` is the external TensorFlow.js collaborator, documented
as a Fisher–Yates shuffle of the given array, so the shuffled contents
have the same value as `shuffleArray`; `slice(0, n)` truncates.  Its
in-place aliasing behaviour is modelled separately by `pickRandomStore`
below. -/
def pickRandom (rand : Nat → Nat) (arr : List α) (n : Nat) : List α :=
  (shuffleArray rand arr).take n

/-- The function `simulateDrugCreation(input)` of the enhanced variant;
`randStr` is the `Math.random().toString(36)` string, `rW` and `rP` the
`Math.random()` draws for weight and logP, `rand` drives the shuffle. -/
def simulateDrugCreation (randStr : List Char) (rW rP : ℚ) (rand : Nat → Nat)
    (input : List Char) : Drug :=
  { name := "FX-".toList ++ (jsSlice randStr 2 7).map Char.toUpper,
    «structure» := input.reverse ++ "-MOL".toList,
    molWeight := jsToFixed 1 (100 + rW * 500),
    logP := jsToFixed 2 (rP * 6 - 1),
    sideEffects := pickRandom rand sideEffectVocab 3 }

/-- The function `encodeMolecule(str)`: a 10-slot zero vector whose slots
`i < min(len, 10)` are overwritten with `charCodeAt(i) / 255`. -/
def encodeMolecule (s : List Char) : List ℚ :=
  (List.range (min s.length 10)).foldl
    (fun codes i => codes.set i (((s.getD i ' ').toNat : ℚ) / 255))
    (List.replicate 10 (0 : ℚ))

/-- The dataset written by `renderBarChart(efficacy, toxicity)`: both
values formatted with `toFixed(1)`. -/
def renderBarChartData (efficacy toxicity : ℚ) : ℚ × ℚ :=
  (jsToFixed 1 efficacy, jsToFixed 1 toxicity)

/-- The session and UI state touched by the enhanced variant's handlers;
`M` is the type of the TensorFlow.js model handle (`model` starts as
`null`, i.e. `none`). -/
structure State (M : Type) where
  currentDrug : Option Drug
  model : Option M
  currentStep : Nat
  spinnerHidden : Bool
  testBtnDisabled : Bool
  barChart : Option (ℚ × ℚ)
  radarChart : Option (List (List Char))
  deriving Repr, DecidableEq

/-- The `createBtn` click handler of the enhanced variant; the returned
flag records whether `alert(...)` fired (the empty-input warning). -/
def createBtnClick {M : Type} (randStr : List Char) (rW rP : ℚ)
    (rand : Nat → Nat) (value : List Char) (s : State M) : State M × Bool :=
  let input := jsTrim value
  if input = [] then (s, true)
  else
    ({ s with
        currentDrug := some (simulateDrugCreation randStr rW rP rand input),
        currentStep := 1 }, false)

/-- What a run of the enhanced `testBtn` handler did: whether
`buildAndTrainModel` was invoked, and whether the handler threw (the
`TypeError` from reading `currentDrug.structure` off a null drug). -/
structure TestOutcome where
  trained : Bool
  threw : Bool
  deriving Repr, DecidableEq

/-- The `testBtn` click handler of the enhanced variant.  `build` stands
for the model returned by `buildAndTrainModel()` and `predict` for the
external model's inference (`model.predict(...).dataSync()`), giving the
two outputs of the final sigmoid layer.  The handler shows the spinner,
disables the button, lazily builds the model, then dereferences
`currentDrug` — with no guard: on a null drug it throws after those
mutations. -/
def testBtnClick {M : Type} (build : M) (predict : M → List ℚ → ℚ × ℚ)
    (s : State M) : State M × TestOutcome :=
  let s1 := { s with spinnerHidden := false, testBtnDisabled := true }
  let (s2, didTrain) :=
    match s1.model with
    | none => ({ s1 with model := some build }, true)
    | some _ => (s1, false)
  match s2.currentDrug with
  | none => (s2, { trained := didTrain, threw := true })
  | some d =>
    let mdl := s2.model.getD build
    let (eff, tox) := predict mdl (encodeMolecule d.«structure»)
    ({ s2 with
        spinnerHidden := true,
        barChart := some (renderBarChartData (eff * 100) (tox * 100)),
        radarChart := some d.sideEffects },
      { trained := didTrain, threw := false })

end Enh

/-- A tiny array store: JS array references are indices into a list of
arrays, so in-place mutation of one array is observable through every
alias of its reference. -/
structure Store (α : Type) where
  arrays : List (List α)
  deriving Repr, DecidableEq

/-- Dereference an array in the store. -/
def Store.read (st : Store α) (r : Nat) : List α := st.arrays.getD r []

/-- Overwrite the array behind a reference. -/
def Store.write (st : Store α) (r : Nat) (v : List α) : Store α :=
  ⟨st.arrays.set r v⟩

/-- Allocate a fresh array (what `arr.slice()` does), returning its
reference. -/
def Store.alloc (st : Store α) (v : List α) : Store α × Nat :=
  (⟨st.arrays ++ [v]⟩, st.arrays.length)

/-- The Fisher–Yates loop performed through the store on the array behind
reference `r`: each iteration reads the array, swaps two entries and
writes it back. -/
def fisherYatesStore (rand : Nat → Nat) (r : Nat) (st : Store α) :
    Nat → Store α
  | 0 => st
  | c + 1 =>
    fisherYatesStore rand r
      (st.write r (listSwap (st.read r) (c + 1) (rand (c + 1) % (c + 2)))) c

/-- The basic variant's `shuffleArray(arr)` at the reference level: the
body first clones the argument (`const array = arr.slice()`, a fresh
allocation) and runs the swap loop on the clone only, returning the
clone's reference. -/
def shuffleArrayStore (rand : Nat → Nat) (st : Store α) (arr : Nat) :
    Store α × Nat :=
  let copy := st.read arr
  let (st1, r) := st.alloc copy
  (fisherYatesStore rand r st1 (copy.length - 1), r)

/-- The enhanced variant's `pickRandom(arr, n)` at the reference level:
`tf.util.shuffle(arr)` shuffles the caller's own array in place (the
documented behaviour of this external collaborator — no clone is taken
anywhere in `pickRandom`), and the result is read off that same array. -/
def pickRandomStore (rand : Nat → Nat) (st : Store α) (arr n : Nat) :
    Store α × List α :=
  let st1 := fisherYatesStore rand arr st ((st.read arr).length - 1)
  (st1, (st1.read arr).take n)

/-- The lowercase base-36 digits, the alphabet of
`Number.prototype.toString(36)`. -/
def base36LowerDigits : List Char :=
  "0123456789abcdefghijklmnopqrstuvwxyz".toList

/-- Uppercase base-36 alphanumeric characters, the alphabet the spec's
name pattern `FX-[A-Z0-9]` ranges over. -/
def isBase36Upper (c : Char) : Bool :=
  "0123456789ABCDEFGHIJKLMNOPQRSTUVWXYZ".toList.contains c

/-- Characterisation of the strings `Math.random().toString(36)` can
produce for a draw in `[0,1)`: either `"0"` (for the draw `0`, and
exactly-representable integers scaled away), or `"0."` followed by a
non-empty run of lowercase base-36 digits. -/
def validRandom36 (s : List Char) : Prop :=
  s = ['0'] ∨
    ∃ ds : List Char, s = '0' :: '.' :: ds ∧ ds ≠ [] ∧
      ∀ c ∈ ds, c ∈ base36LowerDigits

/-- The spec's drug-name pattern: `FX-` followed by exactly 5 to 6
uppercase base-36 alphanumeric characters. -/
def matchesNamePattern (s : List Char) : Prop :=
  s.take 3 = "FX-".toList ∧ 5 ≤ (s.drop 3).length ∧ (s.drop 3).length ≤ 6 ∧
    ∀ c ∈ s.drop 3, isBase36Upper c

instance (s : List Char) : Decidable (matchesNamePattern s) := by
  unfold matchesNamePattern
  infer_instance

/-!  ## Supporting lemmas  -/

theorem count_set_add [DecidableEq α] :
    ∀ (l : List α) (i : Nat) (b c x : α), l.get? i = some x →
      (l.set i b).count c + (if x = c then 1 else 0)
        = l.count c + (if b = c then 1 else 0) := by
  intro l
  induction l with
  | nil => intro i b c x hx; simp at hx
  | cons a t ih =>
    intro i b c x hx
    cases i with
    | zero =>
      rw [List.get?_cons_zero] at hx
      obtain rfl : a = x := Option.some.inj hx
      rw [List.set_cons_zero]
      by_cases hb : b = c <;> by_cases ha : a = c <;>
        simp only [List.count_cons, hb, ha, beq_iff_eq, if_true, if_false,
          ite_true, ite_false, beq_self_eq_true]
    | succ i =>
      rw [List.get?_cons_succ] at hx
      have h := ih i b c x hx
      rw [List.set_cons_succ]
      by_cases ha : a = c <;> simp [List.count_cons, ha] <;> omega

theorem listSwap_perm [DecidableEq α] (l : List α) (i j : Nat) :
    (listSwap l i j).Perm l := by
  unfold listSwap
  split
  case _ x y hi hj =>
    have hj' : (l.set i y).get? j = some y := by
      by_cases hij : i = j
      · subst hij
        obtain ⟨hb, -⟩ := List.get?_eq_some.mp hj
        exact List.get?_set_eq_of_lt y (by simpa using hb)
      · rw [List.get?_set_ne y l hij]; exact hj
    have h1 := count_set_add (l.set i y) j x
    have h2 := count_set_add l i y
    refine List.perm_iff_count.mpr fun a => ?_
    have e1 := h1 a y hj'
    have e2 := h2 a x hi
    omega
  case _ => exact List.Perm.refl l

theorem fisherYatesAux_perm [DecidableEq α] (rand : Nat → Nat) :
    ∀ (n : Nat) (l : List α), (fisherYatesAux rand l n).Perm l
  | 0, _ => List.Perm.refl _
  | n + 1, l =>
    (fisherYatesAux_perm rand n _).trans
      (listSwap_perm l (n + 1) (rand (n + 1) % (n + 2)))

theorem shuffleArray_perm [DecidableEq α] (rand : Nat → Nat) (arr : List α) :
    (shuffleArray rand arr).Perm arr :=
  fisherYatesAux_perm rand (arr.length - 1) arr

theorem foldl_set_length (f : Nat → β) :
    ∀ (m : Nat) (cs : List β),
      ((List.range m).foldl (fun l j => l.set j (f j)) cs).length
        = cs.length := by
  intro m
  induction m with
  | zero => intro cs; rfl
  | succ m ih =>
    intro cs
    rw [List.range_succ, List.foldl_append]
    simp [List.length_set, ih cs]

theorem foldl_set_get? (f : Nat → β) :
    ∀ (m : Nat) (cs : List β) (i : Nat),
      ((List.range m).foldl (fun l j => l.set j (f j)) cs).get? i
        = if i < m ∧ i < cs.length then some (f i) else cs.get? i := by
  intro m
  induction m with
  | zero => intro cs i; simp
  | succ m ih =>
    intro cs i
    rw [List.range_succ, List.foldl_append]
    simp only [List.foldl_cons, List.foldl_nil]
    rw [List.get?_set]
    by_cases him : m = i
    · subst him
      rw [ih cs m]
      simp only [Nat.lt_irrefl, false_and, if_false]
      by_cases hlen : m < cs.length
      · rw [List.get?_eq_get hlen]
        simp [hlen, Nat.lt_succ_self]
      · rw [List.get?_eq_none.mpr (Nat.le_of_not_lt hlen)]
        simp [hlen]
    · rw [ih cs i]
      by_cases h1 : i < m
      · simp [him, h1, Nat.lt_succ_of_lt h1]
      · have h2 : ¬ i < m + 1 := by omega
        simp [him, h1, h2]

theorem store_read_write_ne (st : Store α) {r r' : Nat} (h : r ≠ r')
    (v : List α) : (st.write r v).read r' = st.read r' := by
  unfold Store.read Store.write
  rw [List.getD_eq_get?, List.getD_eq_get?, List.get?_set_ne v _ h]

theorem store_read_write_eq (st : Store α) {r : Nat}
    (h : r < st.arrays.length) (v : List α) :
    (st.write r v).read r = v := by
  unfold Store.read Store.write
  rw [List.getD_eq_get?, List.get?_set_eq_of_lt v h]
  rfl

theorem store_write_length (st : Store α) (r : Nat) (v : List α) :
    (st.write r v).arrays.length = st.arrays.length :=
  List.length_set ..

theorem store_read_alloc_lt (st : Store α) (v : List α) {r : Nat}
    (h : r < st.arrays.length) : (st.alloc v).1.read r = st.read r := by
  unfold Store.read Store.alloc
  rw [List.getD_eq_get?, List.getD_eq_get?, List.get?_append h]

theorem fisherYatesStore_read_ne (rand : Nat → Nat) {r r' : Nat}
    (h : r ≠ r') :
    ∀ (n : Nat) (st : Store α),
      (fisherYatesStore rand r st n).read r' = st.read r'
  | 0, _ => rfl
  | n + 1, st => by
    rw [fisherYatesStore, fisherYatesStore_read_ne rand h n,
      store_read_write_ne st h]

theorem fisherYatesStore_read_eq (rand : Nat → Nat) {r : Nat} :
    ∀ (n : Nat) (st : Store α), r < st.arrays.length →
      (fisherYatesStore rand r st n).read r
        = fisherYatesAux rand (st.read r) n
  | 0, _, _ => rfl
  | n + 1, st, h => by
    rw [fisherYatesStore, fisherYatesAux,
      fisherYatesStore_read_eq rand n _ (by rw [store_write_length]; exact h),
      store_read_write_eq st h]

theorem round_mono_q {a b : ℚ} (h : a ≤ b) : round a ≤ round b := by
  rw [round_eq, round_eq]
  exact Int.floor_mono (by linarith)

theorem jsToFixed_one_bounds (q : ℚ) (h0 : 0 ≤ q) (h1 : q ≤ 100) :
    0 ≤ jsToFixed 1 q ∧ jsToFixed 1 q ≤ 100 ∧
      ∃ k : ℤ, jsToFixed 1 q = (k : ℚ) / 10 := by
  have hlo : (0 : ℤ) ≤ round (q * 10 ^ 1) := by
    have := round_mono_q (by nlinarith : (0 : ℚ) ≤ q * 10 ^ 1)
    simpa using this
  have hhi : round (q * 10 ^ 1) ≤ 1000 := by
    have h := round_mono_q (by push_cast; nlinarith : q * 10 ^ 1 ≤ ((1000 : ℤ) : ℚ))
    rwa [round_intCast] at h
  unfold jsToFixed
  refine ⟨by positivity, ?_, round (q * 10 ^ 1), by norm_num⟩
  rw [div_le_iff (by norm_num : (0 : ℚ) < 10 ^ 1)]
  calc ((round (q * 10 ^ 1) : ℤ) : ℚ) ≤ ((1000 : ℤ) : ℚ) := by exact_mod_cast hhi
    _ = 100 * 10 ^ 1 := by norm_num

/-!  ## Claim theorems  -/

/-- Claim C1, counterexample to the worked example: the basic variant on
input `"caffeine"` produces structure `"enieffac-mol"` — the
character-order reversal of `"caffeine"` is `"enieffac"`, not
`"eniaffac"` as the claim states — so the claimed structure
`"eniaffac-mol"` is not what `createDrug` returns. -/
theorem claim1_caffeine_counterexample :
    (Basic.simulateDrugCreation "0.k7q2p".toList "caffeine".toList).«structure»
        = "enieffac-mol".toList
    ∧ (Basic.simulateDrugCreation "0.k7q2p".toList "caffeine".toList).«structure»
        ≠ "eniaffac-mol".toList := by
  exact ⟨by decide, by decide⟩

/-- Claim C1 (amended): for every non-empty trimmed input `s`, the Drug
returned by `simulateDrugCreation` has structure equal to the
character-order reversal of `s` with the fixed suffix appended (`-mol`
basic, `-MOL` enhanced) and length `s.length + 4`; in particular input
`"caffeine"` in the basic variant yields structure `"enieffac-mol"`
(the claim's `"eniaffac-mol"` mis-spells the reversal). -/
theorem claim1_structure_reverse_suffix
    (randStr : List Char) (rW rP : ℚ) (rand : Nat → Nat) (s : List Char)
    (htrim : jsTrim s = s) (hne : s ≠ []) :
    (Basic.simulateDrugCreation randStr s).«structure»
        = s.reverse ++ "-mol".toList
    ∧ (Basic.simulateDrugCreation randStr s).«structure».length
        = s.length + 4
    ∧ (Enh.simulateDrugCreation randStr rW rP rand s).«structure»
        = s.reverse ++ "-MOL".toList
    ∧ (Enh.simulateDrugCreation randStr rW rP rand s).«structure».length
        = s.length + 4
    ∧ (Basic.simulateDrugCreation randStr "caffeine".toList).«structure»
        = "enieffac-mol".toList := by
  have h4 : ("-mol".toList).length = 4 := rfl
  have H4 : ("-MOL".toList).length = 4 := rfl
  refine ⟨rfl, ?_, rfl, ?_, rfl⟩
  · show (s.reverse ++ "-mol".toList).length = s.length + 4
    rw [List.length_append, List.length_reverse, h4]
  · show (s.reverse ++ "-MOL".toList).length = s.length + 4
    rw [List.length_append, List.length_reverse, H4]

/-- Claim C1 witness: the input `"caffeine"` is non-empty and trimmed,
and instantiating the amended claim at it gives the corrected structure
`"enieffac-mol"`. -/
theorem claim1_structure_witness :
    jsTrim "caffeine".toList = "caffeine".toList
    ∧ "caffeine".toList ≠ []
    ∧ (Basic.simulateDrugCreation "0.k7q2p".toList "caffeine".toList).«structure»
        = "enieffac-mol".toList :=
  ⟨by decide, by decide,
    (claim1_structure_reverse_suffix "0.k7q2p".toList 0 0 (fun _ => 0)
      "caffeine".toList (by decide) (by decide)).2.2.2.2⟩

/-- Claim C10: `simulateDrugCreation` is total over all strings in both
variants — the structure formula needs no non-emptiness precondition,
and the empty string (or a whitespace-only one) simply yields the bare
suffix as structure, with every field still defined. -/
theorem claim10_simulateDrugCreation_total
    (randStr : List Char) (rW rP : ℚ) (rand : Nat → Nat) (s : List Char) :
    (Basic.simulateDrugCreation randStr s).«structure»
        = s.reverse ++ "-mol".toList
    ∧ (Enh.simulateDrugCreation randStr rW rP rand s).«structure»
        = s.reverse ++ "-MOL".toList
    ∧ (Basic.simulateDrugCreation randStr []).«structure» = "-mol".toList
    ∧ (Enh.simulateDrugCreation randStr rW rP rand []).«structure»
        = "-MOL".toList
    ∧ (Basic.simulateDrugCreation randStr [' ']).«structure»
        = ' ' :: "-mol".toList
    ∧ (Enh.simulateDrugCreation randStr rW rP rand [' ']).«structure»
        = ' ' :: "-MOL".toList :=
  ⟨rfl, rfl, rfl, rfl, rfl, rfl⟩

/-- Claim C9: a blank or whitespace-only molecule description makes the
create handler abort before constructing a Drug: in the basic variant
only the warning text changes (in particular `currentDrug` is
untouched), and in the enhanced variant the state is returned unchanged
with the alert fired. -/
theorem claim9_emptyInput_create_noop
    (randStr value : List Char) (rW rP : ℚ) (rand : Nat → Nat)
    (s : Basic.State) (M : Type) (t : Enh.State M)
    (h : jsTrim value = []) :
    Basic.createBtnClick randStr value s
        = { s with resultOutput := Basic.emptyInputWarning }
    ∧ (Basic.createBtnClick randStr value s).currentDrug = s.currentDrug
    ∧ Enh.createBtnClick randStr rW rP rand value t = (t, true) := by
  refine ⟨?_, ?_, ?_⟩ <;> simp [Basic.createBtnClick, Enh.createBtnClick, h]

/-- Claim C9 witness: three spaces trim to the empty string, and the
create handlers of both variants leave `currentDrug` untouched on that
input. -/
theorem claim9_emptyInput_witness :
    jsTrim "   ".toList = []
    ∧ (Basic.createBtnClick [] "   ".toList ⟨none, [], true⟩).currentDrug
        = none
    ∧ Enh.createBtnClick (M := ℕ) [] 0 0 (fun _ => 0) "   ".toList
        ⟨none, none, 0, true, true, none, none⟩
        = (⟨none, none, 0, true, true, none, none⟩, true) :=
  ⟨by decide,
    (claim9_emptyInput_create_noop [] "   ".toList 0 0 (fun _ => 0)
      ⟨none, [], true⟩ ℕ ⟨none, none, 0, true, true, none, none⟩
      (by decide)).2.1,
    (claim9_emptyInput_create_noop [] "   ".toList 0 0 (fun _ => 0)
      ⟨none, [], true⟩ ℕ ⟨none, none, 0, true, true, none, none⟩
      (by decide)).2.2⟩

/-- Claim C2 counterexample: in the enhanced variant, invoking the test
handler on the pristine session state (no drug, no model) is not a
no-op — the handler stores a freshly trained model in the session state
and then throws the `TypeError` from dereferencing the null drug, so no
defensive guard exists there. -/
theorem claim2_missingDrug_counterexample :
    (Enh.testBtnClick (M := ℕ) 7 (fun _ _ => (0, 0))
        ⟨none, none, 0, true, false, none, none⟩).1.model = some 7
    ∧ (Enh.testBtnClick (M := ℕ) 7 (fun _ _ => (0, 0))
        ⟨none, none, 0, true, false, none, none⟩).2.threw = true
    ∧ (Enh.testBtnClick (M := ℕ) 7 (fun _ _ => (0, 0))
        ⟨none, none, 0, true, false, none, none⟩).1
        ≠ ⟨none, none, 0, true, false, none, none⟩ := by
  refine ⟨rfl, rfl, fun h => ?_⟩
  exact absurd (congrArg Enh.State.model h) (by decide)

/-- Claim C2 (amended): only the basic variant has the defensive no-op
guard — there, a test action with no drug returns the state unchanged
and never invokes `simulateDrugTesting`.  The enhanced variant has no
guard: the handler un-hides the spinner, disables the button, builds
and trains the model when absent, and then throws a `TypeError`
dereferencing the null drug. -/
theorem claim2_missingDrug_guard :
    (∀ (r1 r2 : ℚ) (rand : Nat → Nat) (s : Basic.State),
        s.currentDrug = none → Basic.testBtnClick r1 r2 rand s = (s, false))
    ∧ (∀ (M : Type) (build : M) (predict : M → List ℚ → ℚ × ℚ)
        (s : Enh.State M), s.currentDrug = none →
          (Enh.testBtnClick build predict s).2.threw = true
          ∧ (Enh.testBtnClick build predict s).1.model
              = some (s.model.getD build)
          ∧ (Enh.testBtnClick build predict s).1.spinnerHidden = false
          ∧ (Enh.testBtnClick build predict s).1.testBtnDisabled = true) := by
  constructor
  · intro r1 r2 rand s h
    unfold Basic.testBtnClick
    rw [h]
  · intro M build predict s h
    rcases hm : s.model with _ | m <;>
      simp [Enh.testBtnClick, hm, h]

/-- Claim C2 witness: instantiating the amended claim at the basic
variant's pristine state shows the guarded no-op concretely. -/
theorem claim2_missingDrug_witness :
    Basic.testBtnClick 0 0 (fun _ => 0) ⟨none, [], true⟩
        = (⟨none, [], true⟩, false)
    ∧ (Enh.testBtnClick (M := ℕ) 9 (fun _ _ => (0, 0))
        ⟨none, some 9, 3, true, false, none, none⟩).2.threw = true :=
  ⟨claim2_missingDrug_guard.1 0 0 (fun _ => 0) ⟨none, [], true⟩ rfl,
    (claim2_missingDrug_guard.2 ℕ 9 (fun _ _ => (0, 0))
      ⟨none, some 9, 3, true, false, none, none⟩ rfl).1⟩

/-- Claim C6: in the enhanced variant the model handle goes from
`Unloaded` (`model == null`) to `Ready` exactly once per session: the
first test action trains and stores the model, the second test action
reports no training and keeps the same instance, and in general any
test action finding a stored model reuses it unchanged without
training. -/
theorem claim6_model_trained_once
    (M : Type) (build : M) (predict : M → List ℚ → ℚ × ℚ)
    (s : Enh.State M) (d : Enh.Drug)
    (hm : s.model = none) (hd : s.currentDrug = some d) :
    (Enh.testBtnClick build predict s).2.trained = true
    ∧ (Enh.testBtnClick build predict s).1.model = some build
    ∧ (Enh.testBtnClick build predict
        (Enh.testBtnClick build predict s).1).2.trained = false
    ∧ (Enh.testBtnClick build predict
        (Enh.testBtnClick build predict s).1).1.model = some build
    ∧ (∀ (t : Enh.State M) (m : M), t.model = some m →
        (Enh.testBtnClick build predict t).2.trained = false
        ∧ (Enh.testBtnClick build predict t).1.model = some m) := by
  have hsome : ∀ (t : Enh.State M) (m : M), t.model = some m →
      (Enh.testBtnClick build predict t).2.trained = false
      ∧ (Enh.testBtnClick build predict t).1.model = some m := by
    intro t m hm'
    rcases ht : t.currentDrug with _ | d'
    · simp [Enh.testBtnClick, hm', ht]
    · rcases hp : predict m (Enh.encodeMolecule d'.«structure») with ⟨eff, tox⟩
      simp [Enh.testBtnClick, hm', ht, hp]
  have h1 : (Enh.testBtnClick build predict s).2.trained = true
      ∧ (Enh.testBtnClick build predict s).1.model = some build := by
    rcases hp : predict build (Enh.encodeMolecule d.«structure») with ⟨eff, tox⟩
    constructor <;> simp [Enh.testBtnClick, hm, hd, hp]
  have h2 := hsome (Enh.testBtnClick build predict s).1 build h1.2
  exact ⟨h1.1, h1.2, h2.1, h2.2, hsome⟩

/-- Claim C6 witness: a concrete two-call run — the first test action
trains, the second does not. -/
theorem claim6_model_trained_once_witness :
    (Enh.testBtnClick (M := ℕ) 42 (fun _ _ => (0, 0))
        ⟨some ⟨[], [], 100, 1, []⟩, none, 2, true, false, none, none⟩).2.trained
        = true
    ∧ (Enh.testBtnClick (M := ℕ) 42 (fun _ _ => (0, 0))
        (Enh.testBtnClick (M := ℕ) 42 (fun _ _ => (0, 0))
          ⟨some ⟨[], [], 100, 1, []⟩, none, 2, true, false, none,
            none⟩).1).2.trained = false :=
  ⟨(claim6_model_trained_once ℕ 42 (fun _ _ => (0, 0))
      ⟨some ⟨[], [], 100, 1, []⟩, none, 2, true, false, none, none⟩
      ⟨[], [], 100, 1, []⟩ rfl rfl).1,
    (claim6_model_trained_once ℕ 42 (fun _ _ => (0, 0))
      ⟨some ⟨[], [], 100, 1, []⟩, none, 2, true, false, none, none⟩
      ⟨[], [], 100, 1, []⟩ rfl rfl).2.2.1⟩

/-- Claim C3 counterexample: `shuffleAndTake` does not return pairwise
distinct elements when the input list itself has duplicates (here
`n = 2 = length`), and a call with `n` exceeding the length does not
fail with `InvalidArgument` — `slice(0, n)` silently truncates, so the
call returns the single available element instead of failing. -/
theorem claim3_shuffleAndTake_counterexample :
    Basic.shuffleAndTake (fun _ => 0) [7, 7] 2 = ([7, 7] : List ℕ)
    ∧ ¬ (Basic.shuffleAndTake (fun _ => 0) ([7, 7] : List ℕ) 2).Nodup
    ∧ Basic.shuffleAndTake (fun _ => 0) ([7] : List ℕ) 2 = [7]
    ∧ (Basic.shuffleAndTake (fun _ => 0) ([7] : List ℕ) 2).length = 1 :=
  ⟨by decide, by decide, by decide, by decide⟩

/-- Claim C3 (amended): `shuffleAndTake(items, n)` returns
`min n (length items)` elements — exactly `n` of them when
`n ≤ length items`, with no `InvalidArgument` failure path when
`n > length items` — each a member of `items`, and pairwise distinct
whenever `items` itself is duplicate-free; the enhanced `pickRandom`
computes the same value. -/
theorem claim3_shuffleAndTake_spec {α : Type} [DecidableEq α]
    (rand : Nat → Nat) (items : List α) (n : Nat) :
    (Basic.shuffleAndTake rand items n).length = min n items.length
    ∧ (∀ x ∈ Basic.shuffleAndTake rand items n, x ∈ items)
    ∧ (items.Nodup → (Basic.shuffleAndTake rand items n).Nodup)
    ∧ Enh.pickRandom rand items n = Basic.shuffleAndTake rand items n := by
  have hperm := shuffleArray_perm rand items
  refine ⟨?_, ?_, ?_, rfl⟩
  · unfold Basic.shuffleAndTake
    rw [List.length_take, hperm.length_eq]
  · intro x hx
    exact hperm.subset ((List.take_sublist n _).subset hx)
  · intro hnd
    exact List.Nodup.sublist (List.take_sublist n _)
      (hperm.nodup_iff.mpr hnd)

/-- Claim C3 witness: taking 2 from the 5-element duplicate-free
side-effect vocabulary yields exactly 2 distinct elements. -/
theorem claim3_shuffleAndTake_witness :
    Basic.possibleEffects.Nodup
    ∧ (Basic.shuffleAndTake (fun _ => 1) Basic.possibleEffects 2).length = 2
    ∧ (Basic.shuffleAndTake (fun _ => 1) Basic.possibleEffects 2).Nodup :=
  ⟨by decide,
    (claim3_shuffleAndTake_spec (fun _ => 1) Basic.possibleEffects 2).1.trans
      (by decide),
    (claim3_shuffleAndTake_spec (fun _ => 1) Basic.possibleEffects 2).2.2.1
      (by decide)⟩

/-- Claim C4 counterexample: in the enhanced variant the caller's array
is not unchanged after `pickRandom` — the in-place `tf.util.shuffle`
reorders it (here `[1, 2]` becomes `[2, 1]` behind the caller's
reference). -/
theorem claim4_shuffle_frame_counterexample :
    (pickRandomStore (fun _ => 0) (⟨[[1, 2]]⟩ : Store ℕ) 0 2).1.read 0
        = [2, 1]
    ∧ (pickRandomStore (fun _ => 0) (⟨[[1, 2]]⟩ : Store ℕ) 0 2).1.read 0
        ≠ [1, 2] :=
  ⟨by decide, by decide⟩

/-- Claim C4 (amended): the basic variant's `shuffleArray` operates on a
copy (`arr.slice()`), so the caller's array is unchanged after the
call; the enhanced variant's `pickRandom` hands the caller's array to
the in-place `tf.util.shuffle`, so after the call the caller's array
holds the shuffled contents instead of the original ones. -/
theorem claim4_shuffle_frame {α : Type} (rand : Nat → Nat) (st : Store α)
    (arr n : Nat) (h : arr < st.arrays.length) :
    (shuffleArrayStore rand st arr).1.read arr = st.read arr
    ∧ (pickRandomStore rand st arr n).1.read arr
        = shuffleArray rand (st.read arr) := by
  constructor
  · have hne : st.arrays.length ≠ arr := by omega
    unfold shuffleArrayStore Store.alloc
    rw [fisherYatesStore_read_ne rand hne]
    exact store_read_alloc_lt st _ h
  · unfold pickRandomStore
    rw [fisherYatesStore_read_eq rand _ _ h]
    rfl

/-- Claim C4 witness: on a concrete one-array store, the basic shuffle
leaves the caller's array `[1, 2]` intact while the enhanced one leaves
the shuffled contents behind the caller's reference. -/
theorem claim4_shuffle_frame_witness :
    (shuffleArrayStore (fun _ => 0) (⟨[[1, 2]]⟩ : Store ℕ) 0).1.read 0
        = [1, 2]
    ∧ (pickRandomStore (fun _ => 0) (⟨[[1, 2]]⟩ : Store ℕ) 0 2).1.read 0
        = shuffleArray (fun _ => 0) [1, 2] :=
  ⟨(claim4_shuffle_frame (fun _ => 0) ⟨[[1, 2]]⟩ 0 2 (by decide)).1,
    (claim4_shuffle_frame (fun _ => 0) ⟨[[1, 2]]⟩ 0 2 (by decide)).2⟩

/-- Uppercasing a lowercase base-36 digit lands in the uppercase base-36
alphabet. -/
theorem toUpper_base36 :
    ∀ c ∈ base36LowerDigits, isBase36Upper (Char.toUpper c) := by decide

/-- Claim C5 counterexample: `Math.random()` can return `0`, whose
base-36 string is just `"0"`, and then both variants produce the bare
name `FX-` with zero trailing characters — not 5 to 6. -/
theorem claim5_name_counterexample :
    validRandom36 ['0']
    ∧ (Basic.simulateDrugCreation ['0'] "x".toList).name = "FX-".toList
    ∧ ¬ matchesNamePattern (Basic.simulateDrugCreation ['0'] "x".toList).name
    ∧ ¬ matchesNamePattern
        (Enh.simulateDrugCreation ['0'] 0 0 (fun _ => 0) "x".toList).name :=
  ⟨Or.inl rfl, by decide, by decide, by decide⟩

/-- Claim C5 (amended): for every string `Math.random().toString(36)` can
produce, the generated name is `FX-` followed by
`min 5 (randStr.length - 2)` uppercase base-36 characters — between 0
and 5 of them, exactly 5 in the typical case of a long fractional
expansion, and never 6; the enhanced variant's `slice(2, 7)` produces
the identical name as the basic variant's `substr(2, 5)`. -/
theorem claim5_name_pattern (randStr input : List Char) (rW rP : ℚ)
    (rand : Nat → Nat) (h : validRandom36 randStr) :
    (Basic.simulateDrugCreation randStr input).name.take 3
        = ['F', 'X', '-']
    ∧ ((Basic.simulateDrugCreation randStr input).name.drop 3).length
        = min 5 (randStr.length - 2)
    ∧ (((Basic.simulateDrugCreation randStr input).name.drop 3).length ≤ 5)
    ∧ (∀ c ∈ (Basic.simulateDrugCreation randStr input).name.drop 3,
        isBase36Upper c)
    ∧ (Enh.simulateDrugCreation randStr rW rP rand input).name
        = (Basic.simulateDrugCreation randStr input).name := by
  have hdrop : (Basic.simulateDrugCreation randStr input).name.drop 3
      = (jsSubstr randStr 2 5).map Char.toUpper := rfl
  refine ⟨rfl, ?_, ?_, ?_, rfl⟩
  · rw [hdrop, List.length_map]
    unfold jsSubstr
    rw [List.length_take, List.length_drop]
  · rw [hdrop, List.length_map]
    unfold jsSubstr
    rw [List.length_take, List.length_drop]
    omega
  · intro c hc
    rw [hdrop, List.mem_map] at hc
    obtain ⟨d, hd, rfl⟩ := hc
    rcases h with h0 | ⟨ds, rfl, -, hds⟩
    · rw [h0] at hd
      simp [jsSubstr] at hd
    · refine toUpper_base36 d (hds d ?_)
      have : jsSubstr ('0' :: '.' :: ds) 2 5 = ds.take 5 := rfl
      rw [this] at hd
      exact (List.take_sublist 5 ds).subset hd

/-- Claim C5 witness: a typical 5-fractional-digit random string gives a
name with exactly 5 trailing uppercase base-36 characters. -/
theorem claim5_name_witness :
    validRandom36 "0.k7q2p".toList
    ∧ ((Basic.simulateDrugCreation "0.k7q2p".toList "x".toList).name.drop
        3).length = 5
    ∧ ∀ c ∈ (Basic.simulateDrugCreation "0.k7q2p".toList "x".toList).name.drop
        3, isBase36Upper c :=
  ⟨Or.inr ⟨"k7q2p".toList, rfl, by decide, by decide⟩,
    (claim5_name_pattern "0.k7q2p".toList "x".toList 0 0 (fun _ => 0)
      (Or.inr ⟨"k7q2p".toList, rfl, by decide, by decide⟩)).2.1.trans
      (by decide),
    (claim5_name_pattern "0.k7q2p".toList "x".toList 0 0 (fun _ => 0)
      (Or.inr ⟨"k7q2p".toList, rfl, by decide, by decide⟩)).2.2.2.1⟩

/-- Claim C7: `encodeMolecule` maps a string to a numeric vector of
exactly length 10; the entry at each position `i < min(length, 10)` is
the code point of the `i`-th character divided by 255, positions beyond
the string's length are zero-filled, characters beyond position 10 are
truncated, and for code points up to 255 every entry lies in `[0, 1]`. -/
theorem claim7_encodeMolecule_spec (s : List Char) :
    (Enh.encodeMolecule s).length = 10
    ∧ (∀ (i : Nat) (h : i < s.length), i < 10 →
        (Enh.encodeMolecule s).get? i
          = some (((s.get ⟨i, h⟩).toNat : ℚ) / 255))
    ∧ (∀ i : Nat, s.length ≤ i → i < 10 →
        (Enh.encodeMolecule s).get? i = some 0)
    ∧ ((∀ c ∈ s, c.toNat ≤ 255) →
        ∀ q ∈ Enh.encodeMolecule s, 0 ≤ q ∧ q ≤ 1) := by
  have hchar := foldl_set_get?
    (fun i => (((s.getD i ' ').toNat : ℚ) / 255)) (min s.length 10)
    (List.replicate 10 (0 : ℚ))
  have hlen : (Enh.encodeMolecule s).length = 10 := by
    unfold Enh.encodeMolecule
    rw [foldl_set_length, List.length_replicate]
  refine ⟨hlen, ?_, ?_, ?_⟩
  · intro i h h10
    unfold Enh.encodeMolecule
    rw [hchar i]
    have hc : i < min s.length 10 ∧ i < (List.replicate 10 (0 : ℚ)).length := by
      rw [List.length_replicate]
      omega
    rw [if_pos hc]
    have : s.getD i ' ' = s.get ⟨i, h⟩ := by
      rw [List.getD_eq_get?, List.get?_eq_get h]
      rfl
    rw [this]
  · intro i hlow h10
    unfold Enh.encodeMolecule
    rw [hchar i]
    have hc : ¬ (i < min s.length 10 ∧
        i < (List.replicate 10 (0 : ℚ)).length) := by
      rw [List.length_replicate]
      omega
    rw [if_neg hc]
    have h10' : i < (List.replicate 10 (0 : ℚ)).length := by
      rw [List.length_replicate]; exact h10
    rw [List.get?_eq_get h10', List.get_replicate]
  · intro hcode q hq
    obtain ⟨i, hi⟩ := List.mem_iff_get?.mp hq
    unfold Enh.encodeMolecule at hi
    rw [hchar i] at hi
    by_cases hc : i < min s.length 10 ∧
        i < (List.replicate 10 (0 : ℚ)).length
    · rw [if_pos hc] at hi
      obtain rfl : (((s.getD i ' ').toNat : ℚ) / 255) = q :=
        Option.some.inj hi
      have hmem : s.getD i ' ' ∈ s := by
        have hlt : i < s.length := lt_of_lt_of_le hc.1 (Nat.min_le_left _ _)
        rw [List.getD_eq_get?, List.get?_eq_get hlt]
        exact List.get_mem s i hlt
      have hle : ((s.getD i ' ').toNat : ℚ) ≤ 255 := by
        exact_mod_cast hcode _ hmem
      constructor
      · positivity
      · rw [div_le_one (by norm_num : (0 : ℚ) < 255)]
        exact hle
    · rw [if_neg hc] at hi
      have : q ∈ List.replicate 10 (0 : ℚ) := List.get?_mem hi
      obtain rfl : q = 0 := List.eq_of_mem_replicate this
      norm_num

/-- Claim C7 witness: encoding `"AB"` gives a length-10 vector with the
code of `'A'` over 255 in slot 0 and zero in the out-of-range slot 5. -/
theorem claim7_encodeMolecule_witness :
    (Enh.encodeMolecule "AB".toList).length = 10
    ∧ (Enh.encodeMolecule "AB".toList).get? 0 = some (65 / 255)
    ∧ (Enh.encodeMolecule "AB".toList).get? 5 = some 0 :=
  ⟨(claim7_encodeMolecule_spec "AB".toList).1,
    ((claim7_encodeMolecule_spec "AB".toList).2.1 0 (by decide)
      (by decide)).trans rfl,
    (claim7_encodeMolecule_spec "AB".toList).2.2.1 5 (by decide) (by decide)⟩

/-- Claim C8: every efficacy / toxicity value surfaced by a test action
is a one-decimal-place value in `[0, 100]` — in the basic variant from
`(Math.random() * 100).toFixed(1)` with the draw in `[0, 1)`, in the
enhanced variant from the two bounded model outputs in `[0, 1]` scaled
by 100 and passed through the chart's `toFixed(1)`. -/
theorem claim8_test_values_bounded :
    (∀ (r1 r2 : ℚ) (rand : Nat → Nat), 0 ≤ r1 → r1 < 1 → 0 ≤ r2 → r2 < 1 →
      (0 ≤ (Basic.simulateDrugTesting r1 r2 rand).efficacy
        ∧ (Basic.simulateDrugTesting r1 r2 rand).efficacy ≤ 100
        ∧ ∃ k : ℤ, (Basic.simulateDrugTesting r1 r2 rand).efficacy
            = (k : ℚ) / 10)
      ∧ (0 ≤ (Basic.simulateDrugTesting r1 r2 rand).toxicity
        ∧ (Basic.simulateDrugTesting r1 r2 rand).toxicity ≤ 100
        ∧ ∃ k : ℤ, (Basic.simulateDrugTesting r1 r2 rand).toxicity
            = (k : ℚ) / 10))
    ∧ (∀ e t : ℚ, 0 ≤ e → e ≤ 1 → 0 ≤ t → t ≤ 1 →
      (0 ≤ (Enh.renderBarChartData (e * 100) (t * 100)).1
        ∧ (Enh.renderBarChartData (e * 100) (t * 100)).1 ≤ 100
        ∧ ∃ k : ℤ, (Enh.renderBarChartData (e * 100) (t * 100)).1
            = (k : ℚ) / 10)
      ∧ (0 ≤ (Enh.renderBarChartData (e * 100) (t * 100)).2
        ∧ (Enh.renderBarChartData (e * 100) (t * 100)).2 ≤ 100
        ∧ ∃ k : ℤ, (Enh.renderBarChartData (e * 100) (t * 100)).2
            = (k : ℚ) / 10)) := by
  constructor
  · intro r1 r2 rand h1 h2 h3 h4
    exact ⟨jsToFixed_one_bounds (r1 * 100) (by nlinarith) (by nlinarith),
      jsToFixed_one_bounds (r2 * 100) (by nlinarith) (by nlinarith)⟩
  · intro e t he1 he2 ht1 ht2
    exact ⟨jsToFixed_one_bounds (e * 100) (by nlinarith) (by nlinarith),
      jsToFixed_one_bounds (t * 100) (by nlinarith) (by nlinarith)⟩

/-- Claim C8 witness: concrete draws `1/2` and `1/3` give bounded
one-decimal efficacy and toxicity in both variants. -/
theorem claim8_test_values_witness :
    (0 ≤ (Basic.simulateDrugTesting (1 / 2) (1 / 3) (fun _ => 0)).efficacy
      ∧ (Basic.simulateDrugTesting (1 / 2) (1 / 3) (fun _ => 0)).efficacy
          ≤ 100)
    ∧ (0 ≤ (Enh.renderBarChartData ((1 / 2) * 100) ((1 / 3) * 100)).2
      ∧ (Enh.renderBarChartData ((1 / 2) * 100) ((1 / 3) * 100)).2 ≤ 100) :=
  ⟨⟨((claim8_test_values_bounded.1 (1 / 2) (1 / 3) (fun _ => 0) (by norm_num)
      (by norm_num) (by norm_num) (by norm_num)).1).1,
    ((claim8_test_values_bounded.1 (1 / 2) (1 / 3) (fun _ => 0) (by norm_num)
      (by norm_num) (by norm_num) (by norm_num)).1).2.1⟩,
    ⟨((claim8_test_values_bounded.2 (1 / 2) (1 / 3) (by norm_num)
      (by norm_num) (by norm_num) (by norm_num)).2).1,
    ((claim8_test_values_bounded.2 (1 / 2) (1 / 3) (by norm_num)
      (by norm_num) (by norm_num) (by norm_num)).2).2.1⟩⟩

end DrugAI
